import Mathlib

/-!
Verification of the amancores server's domain-invariant and counter-consistency
layer (the entity-mutation and read handlers under `src/server/src/handlers`).

The handlers are shallowly embedded as pure functions over an explicit `Store`
value that models the relational row store: each table is a list of rows, and
the serial id generators are explicit `next…Id` counters.  JavaScript numbers
used as entity ids are modelled as `Nat` (the store only ever generates
positive serial ids), denormalized counters as `Int` (SQL increments and
decrements are not clamped), monetary values (`numeric` columns / JS floats)
as `Rat`, text as `List Char`, and SQL timestamps as a `Nat` "now" parameter
threaded into each operation.  Handlers that `throw` before any write are
embedded as `Except Err …`; every throw site in the embedded handlers occurs
before the first write, so an error result leaves the store untouched by
construction, exactly as in the source.

Error classification: the source throws plain `Error(message)` values; the
error kinds (`NotFoundError`, `StateError`, …) are the specification's names
for the individual throw sites, so each embedded throw site is tagged with the
kind the specification assigns to it together with the source's message text.
-/

namespace Amancores

/-- Text fields are modelled as lists of characters. -/
abbrev Str := List Char

/-- Error kinds of the validation layer, as classified by the specification. -/
inductive ErrKind where
  | notFound
  | stateErr
  | conflict
  | selfReference
  | validationErr
  | invalidOperation
deriving DecidableEq

/-- An error surfaced by a handler: its specification-level kind plus the
message text of the `throw new Error(...)` site in the source. -/
structure Err where
  kind : ErrKind
  msg : String
deriving DecidableEq

/-- Row of the `users` table (`usersTable` in the drizzle schema). -/
structure User where
  id : Nat
  username : Str
  email : Str
  display_name : Option Str
  bio : Option Str
  avatar_url : Option Str
  is_verified : Bool
  follower_count : Int
  following_count : Int
  post_count : Int
  created_at : Nat
  updated_at : Nat
deriving DecidableEq

/-- Row of the `posts` table. -/
structure Post where
  id : Nat
  user_id : Nat
  content : Str
  media_urls : Option (List Str)
  like_count : Int
  repost_count : Int
  reply_count : Int
  is_pinned : Bool
  parent_post_id : Option Nat
  created_at : Nat
  updated_at : Nat
deriving DecidableEq

/-- Row of the `listings` table. -/
structure Listing where
  id : Nat
  user_id : Nat
  title : Str
  description : Str
  price : Rat
  currency : Str
  category : Str
  condition : Str
  location : Option Str
  media_urls : Option (List Str)
  is_active : Bool
  view_count : Int
  created_at : Nat
  updated_at : Nat
deriving DecidableEq

/-- Row of the `follows` table. -/
structure Follow where
  id : Nat
  follower_id : Nat
  following_id : Nat
  created_at : Nat
deriving DecidableEq

/-- Row of the `transactions` table. -/
structure Transaction where
  id : Nat
  listing_id : Nat
  buyer_id : Nat
  seller_id : Nat
  amount : Rat
  currency : Str
  status : Str
  payment_method : Option Str
  created_at : Nat
  updated_at : Nat
deriving DecidableEq

/-- The relational store: one list of rows per table used by the verified
handlers, plus the serial id counters of the tables those handlers insert
into. -/
structure Store where
  users : List User
  posts : List Post
  follows : List Follow
  listings : List Listing
  transactions : List Transaction
  nextPostId : Nat
  nextFollowId : Nat
  nextTransactionId : Nat
deriving DecidableEq

/-- Input of `createTransaction` (`createTransactionInputSchema`). -/
structure CreateTransactionInput where
  listing_id : Nat
  buyer_id : Nat
  seller_id : Nat
  amount : Rat
  currency : Str
  payment_method : Option Str
deriving DecidableEq

/-- The status string "pending". -/
def pendingStr : Str := "pending".toList

/-- The idempotency probe of `createTransaction`: the `WHERE` clause of its
lookup for an existing transaction with the same listing and buyer and status
"pending". -/
def pendingProbe (input : CreateTransactionInput) (t : Transaction) : Bool :=
  t.listing_id == input.listing_id && t.buyer_id == input.buyer_id && t.status == pendingStr

/-- `createTransaction` from `src/server/src/handlers/create_transaction.ts`.
Validation happens in the source's order: listing exists, listing active,
buyer exists, seller exists, buyer ≠ seller, seller owns the listing, amount
within 0.01 of the listing price, currency matches; then the idempotency check
returns an existing (listing, buyer, pending) transaction unchanged, and
otherwise a fresh "pending" row is inserted. -/
def createTransaction (now : Nat) (s : Store) (input : CreateTransactionInput) :
    Except Err (Transaction × Store) :=
  match s.listings.find? (fun l => l.id == input.listing_id) with
  | none =>
      .error ⟨.notFound, "Listing with ID " ++ toString input.listing_id ++ " not found"⟩
  | some listing =>
      if !listing.is_active then
        .error ⟨.stateErr, "Listing with ID " ++ toString input.listing_id ++ " is not active"⟩
      else match s.users.find? (fun u => u.id == input.buyer_id) with
      | none =>
          .error ⟨.notFound, "Buyer with ID " ++ toString input.buyer_id ++ " not found"⟩
      | some _ =>
          match s.users.find? (fun u => u.id == input.seller_id) with
          | none =>
              .error ⟨.notFound, "Seller with ID " ++ toString input.seller_id ++ " not found"⟩
          | some _ =>
              if input.buyer_id == input.seller_id then
                .error ⟨.invalidOperation, "Buyer and seller cannot be the same user"⟩
              else if listing.user_id != input.seller_id then
                .error ⟨.invalidOperation, "Seller must be the owner of the listing"⟩
              else if |input.amount - listing.price| > (1 / 100 : Rat) then
                .error ⟨.validationErr, "Transaction amount must match listing price"⟩
              else if input.currency != listing.currency then
                .error ⟨.validationErr, "Transaction currency must match listing currency"⟩
              else
                match s.transactions.find? (pendingProbe input) with
                | some t => .ok (t, s)
                | none =>
                    let t : Transaction :=
                      { id := s.nextTransactionId
                        listing_id := input.listing_id
                        buyer_id := input.buyer_id
                        seller_id := input.seller_id
                        amount := input.amount
                        currency := input.currency
                        status := pendingStr
                        payment_method := input.payment_method
                        created_at := now
                        updated_at := now }
                    .ok (t, { s with
                      transactions := s.transactions ++ [t]
                      nextTransactionId := s.nextTransactionId + 1 })

/-- The kind of the error produced by a handler result, if any. -/
def errKind {α : Type} : Except Err α → Option ErrKind
  | .error e => some e.kind
  | .ok _ => none

/-- Claim C1: `createTransaction` validates in a fixed order and fails with the
corresponding error kind at the first failing check: `NotFoundError` if the
listing does not exist; else `StateError` if the listing is not active; else
`NotFoundError` if the buyer does not exist; else `NotFoundError` if the seller
does not exist; else `InvalidOperationError` if buyer = seller; else
`InvalidOperationError` if the seller does not own the listing; else
`ValidationError` if the amount differs from the listing price by more than
0.01; else `ValidationError` if the currency differs from the listing's. -/
theorem C1_createTransaction_validation_order
    (now : Nat) (s : Store) (input : CreateTransactionInput) :
    (s.listings.find? (fun l => l.id == input.listing_id) = none →
      errKind (createTransaction now s input) = some .notFound) ∧
    (∀ listing, s.listings.find? (fun l => l.id == input.listing_id) = some listing →
      listing.is_active = false →
      errKind (createTransaction now s input) = some .stateErr) ∧
    (∀ listing, s.listings.find? (fun l => l.id == input.listing_id) = some listing →
      listing.is_active = true →
      s.users.find? (fun u => u.id == input.buyer_id) = none →
      errKind (createTransaction now s input) = some .notFound) ∧
    (∀ listing buyer, s.listings.find? (fun l => l.id == input.listing_id) = some listing →
      listing.is_active = true →
      s.users.find? (fun u => u.id == input.buyer_id) = some buyer →
      s.users.find? (fun u => u.id == input.seller_id) = none →
      errKind (createTransaction now s input) = some .notFound) ∧
    (∀ listing buyer seller,
      s.listings.find? (fun l => l.id == input.listing_id) = some listing →
      listing.is_active = true →
      s.users.find? (fun u => u.id == input.buyer_id) = some buyer →
      s.users.find? (fun u => u.id == input.seller_id) = some seller →
      input.buyer_id = input.seller_id →
      errKind (createTransaction now s input) = some .invalidOperation) ∧
    (∀ listing buyer seller,
      s.listings.find? (fun l => l.id == input.listing_id) = some listing →
      listing.is_active = true →
      s.users.find? (fun u => u.id == input.buyer_id) = some buyer →
      s.users.find? (fun u => u.id == input.seller_id) = some seller →
      input.buyer_id ≠ input.seller_id →
      listing.user_id ≠ input.seller_id →
      errKind (createTransaction now s input) = some .invalidOperation) ∧
    (∀ listing buyer seller,
      s.listings.find? (fun l => l.id == input.listing_id) = some listing →
      listing.is_active = true →
      s.users.find? (fun u => u.id == input.buyer_id) = some buyer →
      s.users.find? (fun u => u.id == input.seller_id) = some seller →
      input.buyer_id ≠ input.seller_id →
      listing.user_id = input.seller_id →
      |input.amount - listing.price| > (1 / 100 : Rat) →
      errKind (createTransaction now s input) = some .validationErr) ∧
    (∀ listing buyer seller,
      s.listings.find? (fun l => l.id == input.listing_id) = some listing →
      listing.is_active = true →
      s.users.find? (fun u => u.id == input.buyer_id) = some buyer →
      s.users.find? (fun u => u.id == input.seller_id) = some seller →
      input.buyer_id ≠ input.seller_id →
      listing.user_id = input.seller_id →
      ¬ (|input.amount - listing.price| > (1 / 100 : Rat)) →
      input.currency ≠ listing.currency →
      errKind (createTransaction now s input) = some .validationErr) := by
  refine ⟨?_, ?_, ?_, ?_, ?_, ?_, ?_, ?_⟩
  · intro h
    simp [createTransaction, errKind, h]
  · intro listing h ha
    simp [createTransaction, errKind, h, ha]
  · intro listing h ha hb
    simp [createTransaction, errKind, h, ha, hb]
  · intro listing buyer h ha hb hs
    simp [createTransaction, errKind, h, ha, hb, hs]
  · intro listing buyer seller h ha hb hs he
    simp [createTransaction, errKind, h, ha, hb, hs, he]
  · intro listing buyer seller h ha hb hs hne hown
    simp [createTransaction, errKind, h, ha, hb, hs, hne, hown]
  · intro listing buyer seller h ha hb hs hne hown hamt
    rw [gt_iff_lt, one_div] at hamt
    simp [createTransaction, errKind, h, ha, hb, hs, hne, hown, hamt]
  · intro listing buyer seller h ha hb hs hne hown hamt hcur
    rw [gt_iff_lt, one_div] at hamt
    simp [createTransaction, errKind, h, ha, hb, hs, hne, hown, hamt, hcur]

/-- A sample user (buyer in the marketplace scenarios). -/
def sampleUserA : User :=
  { id := 1, username := "alice".toList, email := "alice@example.com".toList
    display_name := none, bio := none, avatar_url := none, is_verified := false
    follower_count := 0, following_count := 0, post_count := 0
    created_at := 0, updated_at := 0 }

/-- A sample user (seller in the marketplace scenarios). -/
def sampleUserB : User :=
  { sampleUserA with id := 2, username := "bob".toList, email := "bob@example.com".toList }

/-- A sample active listing owned by `sampleUserB`, priced 99.99 USD. -/
def sampleListing : Listing :=
  { id := 1, user_id := 2, title := "Test iPhone 15".toList
    description := "Brand new iPhone 15".toList, price := 9999 / 100
    currency := "USD".toList, category := "electronics".toList
    condition := "new".toList, location := some "New York".toList
    media_urls := none, is_active := true, view_count := 0
    created_at := 0, updated_at := 0 }

/-- A sample store: two users and one active listing, no other rows. -/
def sampleStore : Store :=
  { users := [sampleUserA, sampleUserB], posts := [], follows := []
    listings := [sampleListing], transactions := []
    nextPostId := 1, nextFollowId := 1, nextTransactionId := 1 }

/-- Witness for C1: on `sampleStore`, a purchase of the 99.99 USD listing with
matching amount but currency "EUR" reaches the eighth check and fails with the
validation kind. -/
theorem C1_createTransaction_validation_order_witness :
    errKind (createTransaction 0 sampleStore
      { listing_id := 1, buyer_id := 1, seller_id := 2, amount := 9999 / 100,
        currency := "EUR".toList, payment_method := none }) = some .validationErr :=
  (C1_createTransaction_validation_order 0 sampleStore _).2.2.2.2.2.2.2
    sampleListing sampleUserA sampleUserB rfl rfl rfl rfl (by decide) (by decide)
    (by norm_num [sampleListing]) (by decide)

/-- At most one "pending" transaction per (listing, buyer) pair: any two
distinct rows of the transactions table do not agree on listing and buyer
while both having status "pending". -/
def pendingUnique (s : Store) : Prop :=
  s.transactions.Pairwise (fun t u =>
    ¬(t.listing_id = u.listing_id ∧ t.buyer_id = u.buyer_id ∧
      t.status = pendingStr ∧ u.status = pendingStr))

/-- Inversion for successful `createTransaction` calls: success either came
from the idempotency branch (the found pending transaction is returned and the
store is untouched) or from the insert branch (no pending row was found and
exactly one fresh "pending" row was appended). -/
theorem createTransaction_ok_inv (now : Nat) (s : Store) (input : CreateTransactionInput)
    (t : Transaction) (s' : Store)
    (hok : createTransaction now s input = .ok (t, s')) :
    (s.transactions.find? (pendingProbe input) = some t ∧ s' = s) ∨
    (s.transactions.find? (pendingProbe input) = none ∧
      t = { id := s.nextTransactionId, listing_id := input.listing_id,
            buyer_id := input.buyer_id, seller_id := input.seller_id,
            amount := input.amount, currency := input.currency,
            status := pendingStr, payment_method := input.payment_method,
            created_at := now, updated_at := now } ∧
      s' = { s with
              transactions := s.transactions ++ [t]
              nextTransactionId := s.nextTransactionId + 1 }) := by
  simp only [createTransaction] at hok
  repeat' split at hok
  all_goals simp only [Except.ok.injEq, Prod.mk.injEq, reduceCtorEq] at hok
  · rename_i hfound
    obtain ⟨ht, hs⟩ := hok
    exact Or.inl ⟨by rw [hfound, ht], hs.symm⟩
  · rename_i hnone
    obtain ⟨ht, hs⟩ := hok
    subst ht
    exact Or.inr ⟨hnone, rfl, hs.symm⟩

/-- A successful `createTransaction` call preserves the at-most-one-pending
invariant. -/
theorem createTransaction_preserves_pendingUnique
    (now : Nat) (s : Store) (input : CreateTransactionInput)
    (t : Transaction) (s' : Store)
    (hok : createTransaction now s input = .ok (t, s'))
    (hu : pendingUnique s) : pendingUnique s' := by
  rcases createTransaction_ok_inv now s input t s' hok with ⟨_, hs⟩ | ⟨hnone, ht, hs⟩
  · exact hs ▸ hu
  · subst hs
    subst ht
    have hall := List.find?_eq_none.mp hnone
    unfold pendingUnique at hu ⊢
    simp only [List.pairwise_append, List.pairwise_singleton, List.mem_singleton]
    refine ⟨hu, trivial, ?_⟩
    intro a ha b hb
    subst hb
    intro h
    obtain ⟨hlid, hbid, hsta, _⟩ := h
    have hprobe := hall a ha
    simp only [pendingProbe, Bool.and_eq_true, beq_iff_eq, not_and] at hprobe
    exact hprobe ⟨hlid, hbid⟩ hsta

/-- Runs a list of `createTransaction` requests in order; a failed request
leaves the store unchanged (the handler throws before writing). -/
def runCreates (now : Nat) (s : Store) : List CreateTransactionInput → Store
  | [] => s
  | i :: rest =>
      match createTransaction now s i with
      | .ok (_, s') => runCreates now s' rest
      | .error _ => runCreates now s rest

/-- `runCreates` preserves the at-most-one-pending invariant. -/
theorem runCreates_preserves_pendingUnique (now : Nat) :
    ∀ (inputs : List CreateTransactionInput) (s : Store),
      pendingUnique s → pendingUnique (runCreates now s inputs) := by
  intro inputs
  induction inputs with
  | nil => intro s hu; exact hu
  | cons i rest ih =>
      intro s hu
      unfold runCreates
      cases hc : createTransaction now s i with
      | ok p =>
          exact ih p.2 (createTransaction_preserves_pendingUnique now s i p.1 p.2 hc hu)
      | error e => exact ih s hu

/-- Claim C2: `createTransaction` is idempotent for pending purchases.  If a
"pending" transaction for the same (listing, buyer) pair already exists, a
successful call returns exactly that stored row (same id and created_at) and
leaves the store unchanged; every successful call preserves the
at-most-one-pending-per-pair invariant, and so does any sequence of calls. -/
theorem C2_createTransaction_pending_idempotent
    (now : Nat) (s : Store) (input : CreateTransactionInput) :
    (∀ t s' t₀, createTransaction now s input = .ok (t, s') →
      s.transactions.find? (pendingProbe input) = some t₀ →
      t = t₀ ∧ s' = s) ∧
    (∀ t s', createTransaction now s input = .ok (t, s') →
      pendingUnique s → pendingUnique s') ∧
    (∀ inputs, pendingUnique s → pendingUnique (runCreates now s inputs)) := by
  refine ⟨?_, ?_, ?_⟩
  · intro t s' t₀ hok hfound
    rcases createTransaction_ok_inv now s input t s' hok with ⟨hf, hs⟩ | ⟨hnone, _, _⟩
    · rw [hf] at hfound
      exact ⟨(Option.some.injEq _ _ ▸ hfound).symm ▸ rfl, hs⟩
    · rw [hnone] at hfound
      exact absurd hfound (by simp)
  · intro t s' hok hu
    exact createTransaction_preserves_pendingUnique now s input t s' hok hu
  · intro inputs hu
    exact runCreates_preserves_pendingUnique now inputs s hu

/-- A pending purchase of `sampleListing` by `sampleUserA`, already stored. -/
def samplePending : Transaction :=
  { id := 7, listing_id := 1, buyer_id := 1, seller_id := 2, amount := 9999 / 100
    currency := "USD".toList, status := pendingStr, payment_method := none
    created_at := 3, updated_at := 3 }

/-- `sampleStore` with `samplePending` already in the transactions table. -/
def sampleStoreP : Store := { sampleStore with transactions := [samplePending] }

/-- The retried purchase request matching `samplePending`. -/
def sampleRetryInput : CreateTransactionInput :=
  { listing_id := 1, buyer_id := 1, seller_id := 2, amount := 9999 / 100
    currency := "USD".toList, payment_method := none }

/-- Witness for C2: retrying the purchase while `samplePending` is stored
returns exactly the stored row and leaves the store unchanged. -/
theorem C2_createTransaction_pending_idempotent_witness :
    createTransaction 9 sampleStoreP sampleRetryInput = .ok (samplePending, sampleStoreP) ∧
    (samplePending = samplePending ∧ sampleStoreP = sampleStoreP) := by
  have hcall : createTransaction 9 sampleStoreP sampleRetryInput =
      .ok (samplePending, sampleStoreP) := by
    simp +decide [createTransaction, sampleStoreP, sampleStore, sampleUserA, sampleUserB,
      sampleListing, samplePending, pendingProbe, pendingStr, sampleRetryInput, List.find?]
  exact ⟨hcall,
    (C2_createTransaction_pending_idempotent 9 sampleStoreP sampleRetryInput).1
      samplePending sampleStoreP samplePending hcall (by rfl)⟩

/-- Input of `createFollow` (`createFollowInputSchema`). -/
structure CreateFollowInput where
  follower_id : Nat
  following_id : Nat
deriving DecidableEq

/-- `createFollow` from `src/server/src/handlers/create_follow.ts`.  The
source's combined existence query selects users whose id equals BOTH the
follower id and the following id; for distinct ids it returns no rows, so the
per-user fallback checks decide existence.  After the duplicate-edge check the
edge is inserted and `following_count` of the follower and `follower_count` of
the followed user are each incremented by one. -/
def createFollow (now : Nat) (s : Store) (input : CreateFollowInput) :
    Except Err (Follow × Store) :=
  if input.follower_id == input.following_id then
    .error ⟨.selfReference, "Users cannot follow themselves"⟩
  else
    let combined := s.users.filter (fun u =>
      u.id == input.follower_id && u.id == input.following_id)
    if combined.length < 2 &&
        (s.users.filter (fun u => u.id == input.follower_id)).isEmpty then
      .error ⟨.notFound,
        "User with id " ++ toString input.follower_id ++ " does not exist"⟩
    else if combined.length < 2 &&
        (s.users.filter (fun u => u.id == input.following_id)).isEmpty then
      .error ⟨.notFound,
        "User with id " ++ toString input.following_id ++ " does not exist"⟩
    else if !(s.follows.filter (fun f =>
        f.follower_id == input.follower_id &&
        f.following_id == input.following_id)).isEmpty then
      .error ⟨.conflict, "Follow relationship already exists"⟩
    else
      let f : Follow := { id := s.nextFollowId, follower_id := input.follower_id
                          following_id := input.following_id, created_at := now }
      let users1 := s.users.map (fun u =>
        if u.id == input.follower_id then
          { u with following_count := u.following_count + 1 } else u)
      let users2 := users1.map (fun u =>
        if u.id == input.following_id then
          { u with follower_count := u.follower_count + 1 } else u)
      .ok (f, { s with
        users := users2
        follows := s.follows ++ [f]
        nextFollowId := s.nextFollowId + 1 })

/-- `deleteFollow` from `src/server/src/handlers/create_follow.ts`: checks the
edge exists, deletes it and decrements both counters. -/
def deleteFollow (s : Store) (followerId followingId : Nat) :
    Except Err (Bool × Store) :=
  if (s.follows.filter (fun f =>
      f.follower_id == followerId && f.following_id == followingId)).isEmpty then
    .error ⟨.notFound, "Follow relationship does not exist"⟩
  else
    let follows1 := s.follows.filter (fun f =>
      !(f.follower_id == followerId && f.following_id == followingId))
    let users1 := s.users.map (fun u =>
      if u.id == followerId then
        { u with following_count := u.following_count - 1 } else u)
    let users2 := users1.map (fun u =>
      if u.id == followingId then
        { u with follower_count := u.follower_count - 1 } else u)
    .ok (true, { s with users := users2, follows := follows1 })

/-- A nonempty filter result has `isEmpty = false`. -/
theorem isEmpty_filter_eq_false {α : Type} (p : α → Bool) (l : List α)
    (h : ∃ x ∈ l, p x = true) : (l.filter p).isEmpty = false := by
  obtain ⟨x, hx, hp⟩ := h
  have hm : x ∈ l.filter p := List.mem_filter.mpr ⟨hx, hp⟩
  cases hf : l.filter p with
  | nil => rw [hf] at hm; cases hm
  | cons y ys => simp [List.isEmpty]

/-- The counter effect of a successful `createFollow a b`: +1 following_count
on user `a`, then +1 follower_count on user `b` (the source's two UPDATE
statements, in order). -/
def bumpUserCounts (a b : Nat) (l : List User) : List User :=
  (l.map (fun u =>
    if u.id == a then { u with following_count := u.following_count + 1 } else u)).map
    (fun u => if u.id == b then { u with follower_count := u.follower_count + 1 } else u)

/-- The counter effect of a successful `deleteFollow a b`: -1 following_count
on user `a`, then -1 follower_count on user `b`. -/
def dropUserCounts (a b : Nat) (l : List User) : List User :=
  (l.map (fun u =>
    if u.id == a then { u with following_count := u.following_count - 1 } else u)).map
    (fun u => if u.id == b then { u with follower_count := u.follower_count - 1 } else u)

/-- Claim C3: for existing distinct users (a follower and a followed user)
with no current edge between them, `createFollow` succeeds; a second identical
call fails with the conflict kind; the success increments exactly the
follower's following_count and the followed user's follower_count by one and
touches no other user row; and a subsequent `deleteFollow` on the same pair
restores the users table and the follows table to their prior contents. -/
theorem C3_follow_roundtrip (now now2 : Nat) (s : Store) (a b : Nat)
    (hne : a ≠ b)
    (ha : ∃ u ∈ s.users, u.id = a)
    (hb : ∃ u ∈ s.users, u.id = b)
    (hfresh : ∀ f ∈ s.follows, ¬(f.follower_id = a ∧ f.following_id = b)) :
    ∃ fl s₁ s₂,
      createFollow now s ⟨a, b⟩ = .ok (fl, s₁) ∧
      errKind (createFollow now2 s₁ ⟨a, b⟩) = some .conflict ∧
      s₁.users = s.users.map (fun u =>
        if u.id = a then { u with following_count := u.following_count + 1 }
        else if u.id = b then { u with follower_count := u.follower_count + 1 }
        else u) ∧
      deleteFollow s₁ a b = .ok (true, s₂) ∧
      s₂.users = s.users ∧ s₂.follows = s.follows := by
  have h0 : (a == b) = false := by simp [hne]
  have hcomb : ∀ l : List User, l.filter (fun u => u.id == a && u.id == b) = [] := by
    intro l
    rw [List.filter_eq_nil_iff]
    intro u _
    simp only [Bool.and_eq_true, beq_iff_eq, not_and]
    intro h1 h2
    exact absurd (h1.symm.trans h2) hne
  have hfa : (s.users.filter (fun u => u.id == a)).isEmpty = false := by
    refine isEmpty_filter_eq_false _ _ ?_
    obtain ⟨u, hu, h⟩ := ha
    exact ⟨u, hu, by simp [h]⟩
  have hfb : (s.users.filter (fun u => u.id == b)).isEmpty = false := by
    refine isEmpty_filter_eq_false _ _ ?_
    obtain ⟨u, hu, h⟩ := hb
    exact ⟨u, hu, by simp [h]⟩
  have hconf : s.follows.filter (fun f => f.follower_id == a && f.following_id == b) = [] := by
    rw [List.filter_eq_nil_iff]
    intro f hf
    have hnf := hfresh f hf
    simp only [Bool.and_eq_true, beq_iff_eq, not_and]
    intro h1 h2
    exact hnf ⟨h1, h2⟩
  have hcall : createFollow now s ⟨a, b⟩ = .ok
      (⟨s.nextFollowId, a, b, now⟩,
       { s with
          users := bumpUserCounts a b s.users
          follows := s.follows ++ [⟨s.nextFollowId, a, b, now⟩]
          nextFollowId := s.nextFollowId + 1 }) := by
    simp [createFollow, bumpUserCounts, h0, hcomb, hfa, hfb, hconf]
  have husers : bumpUserCounts a b s.users =
      s.users.map (fun u =>
        if u.id = a then { u with following_count := u.following_count + 1 }
        else if u.id = b then { u with follower_count := u.follower_count + 1 }
        else u) := by
    rw [bumpUserCounts, List.map_map]
    refine List.map_congr_left ?_
    intro u _
    by_cases hua : u.id = a
    · have hub : ¬(u.id = b) := by rw [hua]; exact hne
      simp [Function.comp, hua, hub, hne]
    · by_cases hub : u.id = b
      · simp [Function.comp, hua, hub, Ne.symm hne]
      · simp [Function.comp, hua, hub]
  have hfa2 : ((bumpUserCounts a b s.users).filter (fun u => u.id == a)).isEmpty = false := by
    rw [husers]
    refine isEmpty_filter_eq_false _ _ ?_
    obtain ⟨u, hu, h⟩ := ha
    refine ⟨_, List.mem_map_of_mem _ hu, ?_⟩
    have hub : ¬(u.id = b) := by rw [h]; exact hne
    simp [h, hub]
  have hfb2 : ((bumpUserCounts a b s.users).filter (fun u => u.id == b)).isEmpty = false := by
    rw [husers]
    refine isEmpty_filter_eq_false _ _ ?_
    obtain ⟨u, hu, h⟩ := hb
    refine ⟨_, List.mem_map_of_mem _ hu, ?_⟩
    have hua : ¬(u.id = a) := by rw [h]; exact Ne.symm hne
    simp [h, hua, Ne.symm hne]
  have hdup : ((s.follows ++ [(⟨s.nextFollowId, a, b, now⟩ : Follow)]).filter
      (fun f => f.follower_id == a && f.following_id == b)).isEmpty = false := by
    rw [List.filter_append, hconf]
    simp
  refine ⟨(⟨s.nextFollowId, a, b, now⟩ : Follow),
    { s with
       users := bumpUserCounts a b s.users
       follows := s.follows ++ [(⟨s.nextFollowId, a, b, now⟩ : Follow)]
       nextFollowId := s.nextFollowId + 1 },
    { s with
       users := dropUserCounts a b (bumpUserCounts a b s.users)
       follows := (s.follows ++ [(⟨s.nextFollowId, a, b, now⟩ : Follow)]).filter (fun f =>
         !(f.follower_id == a && f.following_id == b))
       nextFollowId := s.nextFollowId + 1 },
    hcall, ?_, husers, ?_, ?_, ?_⟩
  · -- second identical call hits the duplicate-edge check
    simp [createFollow, errKind, h0, hcomb, hfa2, hfb2, hdup]
  · -- deleteFollow finds the fresh edge and removes it
    simp [deleteFollow, dropUserCounts, hdup]
  · -- both counters return to their prior values
    rw [husers, dropUserCounts, List.map_map, List.map_map]
    have hptw : ∀ u ∈ s.users, (((fun u =>
          if u.id == b then { u with follower_count := u.follower_count - 1 } else u) ∘
        (fun u =>
          if u.id == a then { u with following_count := u.following_count - 1 } else u)) ∘
        (fun u =>
          if u.id = a then { u with following_count := u.following_count + 1 }
          else if u.id = b then { u with follower_count := u.follower_count + 1 }
          else u)) u = u := by
      intro u _
      by_cases hua : u.id = a
      · have hub : ¬(u.id = b) := by rw [hua]; exact hne
        cases u
        simp_all [Function.comp]
      · by_cases hub : u.id = b
        · cases u
          simp_all [Function.comp]
        · simp [Function.comp, hua, hub]
    rw [List.map_congr_left hptw]
    simp
  · -- the follows table returns to its prior contents
    rw [List.filter_append]
    have hkeep : s.follows.filter (fun f =>
        !(f.follower_id == a && f.following_id == b)) = s.follows := by
      rw [List.filter_eq_self]
      intro f hf
      have hnf := hfresh f hf
      simp only [Bool.not_eq_true', Bool.and_eq_true, beq_iff_eq] at *
      by_cases h1 : f.follower_id = a
      · by_cases h2 : f.following_id = b
        · exact absurd ⟨h1, h2⟩ hnf
        · simp [h1, h2]
      · simp [h1]
    rw [hkeep]
    simp

/-- Witness for C3: the round trip on `sampleStore` for follower 1 and
followed user 2. -/
theorem C3_follow_roundtrip_witness :
    ∃ fl s₁ s₂,
      createFollow 5 sampleStore ⟨1, 2⟩ = .ok (fl, s₁) ∧
      errKind (createFollow 6 s₁ ⟨1, 2⟩) = some .conflict ∧
      s₁.users = sampleStore.users.map (fun u =>
        if u.id = 1 then { u with following_count := u.following_count + 1 }
        else if u.id = 2 then { u with follower_count := u.follower_count + 1 }
        else u) ∧
      deleteFollow s₁ 1 2 = .ok (true, s₂) ∧
      s₂.users = sampleStore.users ∧ s₂.follows = sampleStore.follows :=
  C3_follow_roundtrip 5 6 sampleStore 1 2 (by decide)
    ⟨sampleUserA, by simp [sampleStore], rfl⟩
    ⟨sampleUserB, by simp [sampleStore], rfl⟩
    (by simp [sampleStore])

/-- Input of `createPost` (`createPostInputSchema`). -/
structure CreatePostInput where
  user_id : Nat
  content : Str
  media_urls : Option (List Str)
  parent_post_id : Option Nat
deriving DecidableEq

/-- JavaScript truthiness of the optional `parent_post_id` as tested by
`if (input.parent_post_id)`: `null` and `0` are falsy. -/
def parentTruthy (p : Option Nat) : Bool :=
  match p with
  | none => false
  | some v => v != 0

/-- The row inserted by `createPost`: fresh serial id, the input's fields, all
counters zero, not pinned, timestamps defaulted to now. -/
def newPost (now : Nat) (s : Store) (input : CreatePostInput) : Post :=
  { id := s.nextPostId, user_id := input.user_id, content := input.content
    media_urls := input.media_urls, like_count := 0, repost_count := 0
    reply_count := 0, is_pinned := false
    parent_post_id := input.parent_post_id, created_at := now, updated_at := now }

/-- `createPost` from `src/server/src/handlers` (exported next to
`createLike`).  Verifies the user exists; when `parent_post_id` is truthy,
verifies the parent post exists; inserts the post; sets the author's
post_count to the pre-fetched count plus one; and when `parent_post_id` is
truthy re-reads the parent and sets its reply_count to that value plus one. -/
def createPost (now : Nat) (s : Store) (input : CreatePostInput) :
    Except Err (Post × Store) :=
  match s.users.find? (fun u => u.id == input.user_id) with
  | none => .error ⟨.notFound, "User not found"⟩
  | some user =>
      if parentTruthy input.parent_post_id &&
          (s.posts.filter (fun q => some q.id == input.parent_post_id)).isEmpty then
        .error ⟨.notFound, "Parent post not found"⟩
      else
        let post : Post := newPost now s input
        let posts1 := s.posts ++ [post]
        let users1 := s.users.map (fun u =>
          if u.id == input.user_id then
            { u with post_count := user.post_count + 1, updated_at := now } else u)
        let posts2 :=
          if parentTruthy input.parent_post_id then
            match posts1.find? (fun q => some q.id == input.parent_post_id) with
            | some parent =>
                posts1.map (fun q =>
                  if some q.id == input.parent_post_id then
                    { q with reply_count := parent.reply_count + 1, updated_at := now }
                  else q)
            | none => posts1
            -- the `none` branch is unreachable: the parent existed above and
            -- the insert only appends, so the re-read finds it again
          else posts1
        .ok (post, { s with posts := posts2, users := users1, nextPostId := s.nextPostId + 1 })

/-- Two members of a list with no duplicate keys that agree on the key are the
same element. -/
theorem eq_of_mem_of_nodup_keys {α : Type} (f : α → Nat) {l : List α}
    (h : (l.map f).Nodup) {x y : α} (hx : x ∈ l) (hy : y ∈ l) (hf : f x = f y) :
    x = y := by
  induction l with
  | nil => cases hx
  | cons z zs ih =>
      rw [List.map_cons, List.nodup_cons] at h
      rcases List.mem_cons.mp hx with hxz | hxs
      · rcases List.mem_cons.mp hy with hyz | hys
        · exact hxz.trans hyz.symm
        · subst hxz
          have hmem : f x ∈ zs.map f := by
            rw [hf]; exact List.mem_map_of_mem f hys
          exact absurd hmem h.1
      · rcases List.mem_cons.mp hy with hyz | hys
        · subst hyz
          have hmem : f y ∈ zs.map f := by
            rw [← hf]; exact List.mem_map_of_mem f hxs
          exact absurd hmem h.1
        · exact ih h.2 hxs hys

/-- A `find?` hit in the first part of an append is the hit of the whole. -/
theorem find?_append_of_some {α : Type} (p : α → Bool) {l₁ : List α} (l₂ : List α)
    {a : α} (h : l₁.find? p = some a) : (l₁ ++ l₂).find? p = some a := by
  induction l₁ with
  | nil => cases h
  | cons z zs ih =>
      rw [List.cons_append]
      cases hz : p z with
      | true => rw [List.find?_cons_of_pos _ hz]; rwa [List.find?_cons_of_pos _ hz] at h
      | false => rw [List.find?_cons_of_neg _ (by simp [hz])]
                 exact ih (by rwa [List.find?_cons_of_neg _ (by simp [hz])] at h)

/-- Claim C4 (amended): `createPost` with `parent_post_id = null` changes no
stored post (it only appends the new post, whose reply_count is 0) and
increments exactly the author's post_count; with a nonzero `parent_post_id`
that resolves, exactly that parent's reply_count rises by 1 alongside the
author's post_count, and no other row changes; it fails with the not-found
kind when the user is missing, and when a nonzero `parent_post_id` does not
resolve.  (A `parent_post_id` of 0 is JavaScript-falsy and is treated as
absent, see the counterexample theorem.) -/
theorem C4_createPost_counters (now : Nat) (s : Store) (input : CreatePostInput) :
    (s.users.find? (fun u => u.id == input.user_id) = none →
      errKind (createPost now s input) = some .notFound) ∧
    (∀ user p, s.users.find? (fun u => u.id == input.user_id) = some user →
      input.parent_post_id = some p → p ≠ 0 →
      (∀ q ∈ s.posts, q.id ≠ p) →
      errKind (createPost now s input) = some .notFound) ∧
    ((s.users.map User.id).Nodup →
      input.parent_post_id = none →
      (∃ user ∈ s.users, user.id = input.user_id) →
      ∃ post s', createPost now s input = .ok (post, s') ∧
        post.reply_count = 0 ∧
        s'.posts = s.posts ++ [post] ∧
        s'.users = s.users.map (fun u =>
          if u.id = input.user_id then
            { u with post_count := u.post_count + 1, updated_at := now } else u)) ∧
    ((s.users.map User.id).Nodup →
      (s.posts.map Post.id).Nodup →
      (∀ q ∈ s.posts, q.id ≠ s.nextPostId) →
      (∃ user ∈ s.users, user.id = input.user_id) →
      ∀ p, input.parent_post_id = some p → p ≠ 0 →
      (∃ parent ∈ s.posts, parent.id = p) →
      ∃ post s', createPost now s input = .ok (post, s') ∧
        post.reply_count = 0 ∧
        s'.posts = (s.posts.map (fun q =>
          if q.id = p then { q with reply_count := q.reply_count + 1, updated_at := now }
          else q)) ++ [post] ∧
        s'.users = s.users.map (fun u =>
          if u.id = input.user_id then
            { u with post_count := u.post_count + 1, updated_at := now } else u)) := by
  refine ⟨?_, ?_, ?_, ?_⟩
  · intro h
    simp [createPost, errKind, h]
  · intro user p hu hp hpz hnr
    have hfil : s.posts.filter (fun q => some q.id == input.parent_post_id) = [] := by
      rw [hp, List.filter_eq_nil_iff]
      intro q hq
      simp [hnr q hq]
    simp [createPost, errKind, hu, hfil, parentTruthy, hp, hpz, hnr]
    rw [if_pos hnr]
  · intro hnodup hp hex
    obtain ⟨user0, hu0, hid0⟩ := hex
    cases hfind : s.users.find? (fun u => u.id == input.user_id) with
    | none =>
        exfalso
        have hno := List.find?_eq_none.mp hfind user0 hu0
        simp [hid0] at hno
    | some w =>
        have hwmem : w ∈ s.users := List.mem_of_find?_eq_some hfind
        have hwid : w.id = input.user_id := by
          have := List.find?_some hfind
          simpa using this
        refine ⟨newPost now s input,
          { s with
             posts := s.posts ++ [newPost now s input]
             users := s.users.map (fun u =>
               if u.id == input.user_id then
                 { u with post_count := w.post_count + 1, updated_at := now } else u)
             nextPostId := s.nextPostId + 1 },
          ?_, rfl, rfl, ?_⟩
        · simp [createPost, hfind, hp, parentTruthy]
        · dsimp only
          refine List.map_congr_left ?_
          intro u hu
          by_cases huid : u.id = input.user_id
          · have huw : u = w :=
              eq_of_mem_of_nodup_keys User.id hnodup hu hwmem (huid.trans hwid.symm)
            simp [huid, ← huw]
          · simp [huid]
  · intro hnodupU hnodupP hfreshP hexU p hp hpz hexP
    obtain ⟨user0, hu0, hid0⟩ := hexU
    obtain ⟨parent0, hq0, hqid0⟩ := hexP
    cases hfind : s.users.find? (fun u => u.id == input.user_id) with
    | none =>
        exfalso
        have hno := List.find?_eq_none.mp hfind user0 hu0
        simp [hid0] at hno
    | some w =>
        have hwmem : w ∈ s.users := List.mem_of_find?_eq_some hfind
        have hwid : w.id = input.user_id := by
          have := List.find?_some hfind
          simpa using this
        have hfilne : (s.posts.filter (fun q => some q.id == input.parent_post_id)).isEmpty
            = false := by
          refine isEmpty_filter_eq_false _ _ ⟨parent0, hq0, ?_⟩
          simp [hp, hqid0]
        have hpfresh : p ≠ s.nextPostId := fun h => hfreshP parent0 hq0 (hqid0.trans h)
        have hfindP : s.posts.find? (fun q => q.id == p) = some parent0 := by
          cases hf0 : s.posts.find? (fun q => q.id == p) with
          | none =>
              exfalso
              have hno := List.find?_eq_none.mp hf0 parent0 hq0
              simp [hqid0] at hno
          | some x =>
              have hxmem : x ∈ s.posts := List.mem_of_find?_eq_some hf0
              have hxid : x.id = p := by
                have := List.find?_some hf0
                simpa using this
              rw [eq_of_mem_of_nodup_keys Post.id hnodupP hxmem hq0 (hxid.trans hqid0.symm)]
        have hnid : ¬((newPost now s input).id = p) := by
          simpa [newPost] using Ne.symm hpfresh
        refine ⟨newPost now s input,
          { s with
             posts := (s.posts ++ [newPost now s input]).map (fun q =>
               if some q.id == input.parent_post_id then
                 { q with reply_count := parent0.reply_count + 1, updated_at := now }
               else q)
             users := s.users.map (fun u =>
               if u.id == input.user_id then
                 { u with post_count := w.post_count + 1, updated_at := now } else u)
             nextPostId := s.nextPostId + 1 },
          ?_, rfl, ?_, ?_⟩
        · have hcond : ¬(∀ a ∈ s.posts, ¬ a.id = p) := fun hAll => hAll parent0 hq0 hqid0
          simp [createPost, hfind, hfilne, hp, hpz, parentTruthy, hfindP, hnid, hcond]
        · dsimp only
          rw [List.map_append]
          have hnew : [newPost now s input].map (fun q =>
              if some q.id == input.parent_post_id then
                { q with reply_count := parent0.reply_count + 1, updated_at := now }
              else q) = [newPost now s input] := by
            simp [newPost, hp, Ne.symm hpfresh]
          rw [hnew]
          congr 1
          refine List.map_congr_left ?_
          intro q hq
          by_cases hqp : q.id = p
          · have hqparent : q = parent0 :=
              eq_of_mem_of_nodup_keys Post.id hnodupP hq hq0 (hqp.trans hqid0.symm)
            simp [hp, hqp, ← hqparent]
          · simp [hp, hqp]
        · dsimp only
          refine List.map_congr_left ?_
          intro u hu
          by_cases huid : u.id = input.user_id
          · have huw : u = w :=
              eq_of_mem_of_nodup_keys User.id hnodupU hu hwmem (huid.trans hwid.symm)
            simp [huid, ← huw]
          · simp [huid]

/-- Counterexample to C4 as stated: on `sampleStore` (which stores no posts at
all), `createPost` with `parent_post_id = 0` — a given parent id that does not
resolve — succeeds instead of failing with the not-found kind, because the
source's `if (input.parent_post_id)` treats the JavaScript-falsy 0 as
absent. -/
theorem C4_parent_zero_counterexample :
    (∀ q ∈ sampleStore.posts, q.id ≠ 0) ∧
    errKind (createPost 4 sampleStore
      { user_id := 1, content := "hi".toList, media_urls := none,
        parent_post_id := some 0 }) = none := by
  constructor
  · simp [sampleStore]
  · rfl

/-- A stored top-level post by `sampleUserB`, available as a reply parent. -/
def samplePost : Post :=
  { id := 1, user_id := 2, content := "hello".toList, media_urls := none
    like_count := 0, repost_count := 0, reply_count := 0, is_pinned := false
    parent_post_id := none, created_at := 0, updated_at := 0 }

/-- `sampleStore` with `samplePost` stored and the posts serial advanced. -/
def sampleStoreQ : Store := { sampleStore with posts := [samplePost], nextPostId := 2 }

/-- Witness for C4 (amended): replying to `samplePost` on `sampleStoreQ` bumps
exactly that parent's reply_count and the author's post_count. -/
theorem C4_createPost_counters_witness :
    ∃ post s', createPost 8 sampleStoreQ
        { user_id := 1, content := "re".toList, media_urls := none,
          parent_post_id := some 1 } = .ok (post, s') ∧
      post.reply_count = 0 ∧
      s'.posts = (sampleStoreQ.posts.map (fun q =>
        if q.id = 1 then { q with reply_count := q.reply_count + 1, updated_at := 8 }
        else q)) ++ [post] ∧
      s'.users = sampleStoreQ.users.map (fun u =>
        if u.id = 1 then { u with post_count := u.post_count + 1, updated_at := 8 }
        else u) :=
  (C4_createPost_counters 8 sampleStoreQ
      { user_id := 1, content := "re".toList, media_urls := none,
        parent_post_id := some 1 }).2.2.2
    (by decide) (by decide) (by decide)
    ⟨sampleUserA, by simp [sampleStoreQ, sampleStore], rfl⟩
    1 rfl (by decide)
    ⟨samplePost, by simp [sampleStoreQ], rfl⟩

/-- `updateTransactionStatus` from
`src/server/src/handlers/create_transaction.ts`.  The source is an explicit
placeholder ("This is a placeholder declaration! Real code should be
implemented here."): it performs no read and no write against the store and
resolves with a fabricated transaction carrying the requested id and status
and hard-coded listing 1, buyer 1, seller 2, amount 100.00, currency USD,
payment method credit_card, and fresh timestamps. -/
def updateTransactionStatus (now : Nat) (s : Store) (id : Nat) (status : Str) :
    Transaction × Store :=
  ({ id := id, listing_id := 1, buyer_id := 1, seller_id := 2, amount := 100
     currency := "USD".toList, status := status
     payment_method := some "credit_card".toList
     created_at := now, updated_at := now }, s)

/-- A stored transaction used to exhibit that `updateTransactionStatus`
persists nothing: id 5, listing 7, buyer 3, seller 4, status "pending". -/
def sampleTxn : Transaction :=
  { id := 5, listing_id := 7, buyer_id := 3, seller_id := 4, amount := 100
    currency := "USD".toList, status := pendingStr, payment_method := none
    created_at := 3, updated_at := 3 }

/-- `sampleStore` with `sampleTxn` in the transactions table. -/
def sampleStoreT : Store := { sampleStore with transactions := [sampleTxn] }

/-- Claim C5 evaluated at a failing input: `updateTransactionStatus 5
"completed"` leaves the store byte-for-byte unchanged — a subsequent read of
transaction 5 still yields the stored row with status "pending" and its old
updated_at — and the returned object is fabricated (listing_id 1, not the
stored row's listing_id 7).  The claim's required behavior (persist the status
and refresh the timestamp) does not happen. -/
theorem C5_updateTransactionStatus_not_persisted :
    (updateTransactionStatus 9 sampleStoreT 5 "completed".toList).2 = sampleStoreT ∧
    sampleStoreT.transactions.find? (fun t => t.id == 5) = some sampleTxn ∧
    sampleTxn.status = pendingStr ∧ sampleTxn.updated_at = 3 ∧
    (updateTransactionStatus 9 sampleStoreT 5 "completed".toList).1.listing_id = 1 ∧
    sampleTxn.listing_id = 7 :=
  ⟨rfl, rfl, rfl, rfl, rfl, rfl⟩

/-- `deletePost` from `src/server/src/handlers/update_post.ts`: checks the
post exists, deletes the row, then recomputes the owning user's post_count by
counting that user's remaining posts (and refreshes the user's updated_at). -/
def deletePost (now : Nat) (s : Store) (id : Nat) : Except Err (Bool × Store) :=
  match s.posts.find? (fun q => q.id == id) with
  | none => .error ⟨.notFound, "Post not found"⟩
  | some post =>
      let posts1 := s.posts.filter (fun q => !(q.id == id))
      let cnt : Int := (posts1.filter (fun q => q.user_id == post.user_id)).length
      let users1 := s.users.map (fun u =>
        if u.id == post.user_id then { u with post_count := cnt, updated_at := now }
        else u)
      .ok (true, { s with posts := posts1, users := users1 })

/-- Under duplicate-free keys, filtering a list for the key of a member
returns exactly that member. -/
theorem filter_eq_singleton_of_nodup_keys {α : Type} (f : α → Nat) {l : List α}
    (hnd : (l.map f).Nodup) {x : α} (hx : x ∈ l) (k : Nat) (hk : f x = k) :
    l.filter (fun y => f y == k) = [x] := by
  induction l with
  | nil => cases hx
  | cons z zs ih =>
      rw [List.map_cons, List.nodup_cons] at hnd
      rcases List.mem_cons.mp hx with hxz | hxs
      · subst hxz
        rw [List.filter_cons_of_pos (by simp [hk])]
        have hzs : zs.filter (fun y => f y == k) = [] := by
          rw [List.filter_eq_nil_iff]
          intro y hy
          simp only [beq_iff_eq]
          intro hyk
          exact hnd.1 (by rw [hk, ← hyk]; exact List.mem_map_of_mem f hy)
        rw [hzs]
      · have hzk : ¬((fun y => f y == k) z = true) := by
          simp only [beq_iff_eq]
          intro hzk
          exact hnd.1 (by rw [hzk, ← hk]; exact List.mem_map_of_mem f hxs)
        rw [List.filter_cons_of_neg (by simpa using hzk)]
        exact ih hnd.2 hxs

/-- Claim C6: `deletePost` fails with the not-found kind when no post has the
id; on success it removes exactly that post's row (membership-wise for every
store, and exactly one row when post ids are duplicate-free) and sets the
owning user's post_count to the count of that user's remaining posts, so the
invariant post_count(U) = #{stored posts of U} holds for the owning user
afterwards. -/
theorem C6_deletePost_recount (now : Nat) (s : Store) (id : Nat) :
    (s.posts.find? (fun q => q.id == id) = none →
      errKind (deletePost now s id) = some .notFound) ∧
    (∀ post, s.posts.find? (fun q => q.id == id) = some post →
      ∃ s', deletePost now s id = .ok (true, s') ∧
        (∀ q, q ∈ s'.posts ↔ q ∈ s.posts ∧ q.id ≠ id) ∧
        ((s.posts.map Post.id).Nodup → s'.posts.length + 1 = s.posts.length) ∧
        (∀ u ∈ s'.users, u.id = post.user_id →
          u.post_count = ((s'.posts.filter (fun q => q.user_id == u.id)).length : Int))) := by
  constructor
  · intro h
    simp [deletePost, errKind, h]
  · intro post hfind
    refine ⟨{ s with
        posts := s.posts.filter (fun q => !(q.id == id))
        users := s.users.map (fun u =>
          if u.id == post.user_id then
            { u with
               post_count := (((s.posts.filter (fun q => !(q.id == id))).filter
                 (fun q => q.user_id == post.user_id)).length : Int)
               updated_at := now }
          else u) }, ?_, ?_, ?_, ?_⟩
    · simp [deletePost, hfind]
    · intro q
      dsimp only
      rw [List.mem_filter]
      simp
    · intro hnd
      dsimp only
      have hmem : post ∈ s.posts := List.mem_of_find?_eq_some hfind
      have hid : post.id = id := by
        have := List.find?_some hfind
        simpa using this
      have hsplit := @List.length_eq_length_filter_add _ s.posts
        (fun q => q.id == id)
      rw [filter_eq_singleton_of_nodup_keys Post.id hnd hmem id hid] at hsplit
      simpa [Nat.add_comm] using hsplit.symm
    · intro u hu huid
      dsimp only at hu ⊢
      rcases List.mem_map.mp hu with ⟨v, hv, hvu⟩
      by_cases hvid : v.id = post.user_id
      · rw [← hvu]
        simp only [hvid, beq_self_eq_true, if_true]
      · exfalso
        rw [← hvu] at huid
        simp only [hvid, beq_iff_eq, if_neg (by simpa using hvid)] at huid
        exact hvid huid

/-- Witness for C6: deleting `samplePost` from `sampleStoreQ` removes exactly
that row and recounts its owner's posts. -/
theorem C6_deletePost_recount_witness :
    ∃ s', deletePost 9 sampleStoreQ 1 = .ok (true, s') ∧
      (∀ q, q ∈ s'.posts ↔ q ∈ sampleStoreQ.posts ∧ q.id ≠ 1) ∧
      ((sampleStoreQ.posts.map Post.id).Nodup →
        s'.posts.length + 1 = sampleStoreQ.posts.length) ∧
      (∀ u ∈ s'.users, u.id = samplePost.user_id →
        u.post_count = ((s'.posts.filter (fun q => q.user_id == u.id)).length : Int)) :=
  (C6_deletePost_recount 9 sampleStoreQ 1).2 samplePost rfl

/-- `getListingById` from `src/server/src/handlers/get_listings.ts`: first
runs an UPDATE that increments view_count and refreshes updated_at on every
row with the id (a no-op when none exists), then reads the row back; returns
null when the listing does not exist. -/
def getListingById (now : Nat) (s : Store) (id : Nat) : Option Listing × Store :=
  let listings1 := s.listings.map (fun l =>
    if l.id == id then { l with view_count := l.view_count + 1, updated_at := now } else l)
  let s1 := { s with listings := listings1 }
  match listings1.find? (fun l => l.id == id) with
  | none => (none, s1)
  | some l => (some l, s1)

/-- The view-count UPDATE leaves every listing id unchanged. -/
theorem viewBump_ids (now id : Nat) (l : List Listing) :
    (l.map (fun m =>
      if m.id == id then { m with view_count := m.view_count + 1, updated_at := now }
      else m)).map Listing.id = l.map Listing.id := by
  rw [List.map_map]
  refine List.map_congr_left ?_
  intro m _
  by_cases h : m.id = id <;> simp [Function.comp, h]

/-- On a store whose listing ids are duplicate-free, `getListingById` of an
existing listing returns the freshly bumped row and the store with exactly
that row bumped. -/
theorem getListingById_found (now : Nat) (s : Store) (id : Nat) (l : Listing)
    (hnd : (s.listings.map Listing.id).Nodup) (hl : l ∈ s.listings) (hid : l.id = id) :
    getListingById now s id =
      (some { l with view_count := l.view_count + 1, updated_at := now },
       { s with listings := s.listings.map (fun m =>
           if m.id == id then { m with view_count := m.view_count + 1, updated_at := now }
           else m) }) := by
  have hbl : { l with view_count := l.view_count + 1, updated_at := now } ∈
      s.listings.map (fun m =>
        if m.id == id then { m with view_count := m.view_count + 1, updated_at := now }
        else m) := by
    have := List.mem_map_of_mem (fun m =>
      if m.id == id then { m with view_count := m.view_count + 1, updated_at := now }
      else m) hl
    simpa [hid] using this
  have hfind : (s.listings.map (fun m =>
      if m.id == id then { m with view_count := m.view_count + 1, updated_at := now }
      else m)).find? (fun m => m.id == id) =
      some { l with view_count := l.view_count + 1, updated_at := now } := by
    cases hf : (s.listings.map (fun m =>
        if m.id == id then { m with view_count := m.view_count + 1, updated_at := now }
        else m)).find? (fun m => m.id == id) with
    | none =>
        exfalso
        have hno := List.find?_eq_none.mp hf _ hbl
        simp [hid] at hno
    | some x =>
        have hxmem := List.mem_of_find?_eq_some hf
        have hxid : x.id = id := by
          have := List.find?_some hf
          simpa using this
        rcases List.mem_map.mp hxmem with ⟨m, hm, hmx⟩
        have hmid : m.id = id := by
          by_cases h : m.id = id
          · exact h
          · rw [← hmx] at hxid; simp [h] at hxid
        have hml : m = l := eq_of_mem_of_nodup_keys Listing.id
          (by assumption) hm hl (hmid.trans hid.symm)
        rw [← hmx, hml, if_pos (by simp [hid])]
  simp only [getListingById]
  rw [hfind]

/-- Claim C7: `getListingById` on an existing listing increments its
view_count by exactly 1 and refreshes its updated_at on every call (the
returned row shows the new count, and three sequential calls starting from
view_count 0 observe 1, 2, 3); on a missing id it returns null and changes
nothing. -/
theorem C7_getListingById_view_count (now now2 now3 : Nat) (s : Store) (id : Nat) :
    ((∀ l ∈ s.listings, l.id ≠ id) → getListingById now s id = (none, s)) ∧
    ((s.listings.map Listing.id).Nodup →
      ∀ l ∈ s.listings, l.id = id →
      getListingById now s id =
        (some { l with view_count := l.view_count + 1, updated_at := now },
         { s with listings := s.listings.map (fun m =>
             if m.id = id then { m with view_count := m.view_count + 1, updated_at := now }
             else m) })) ∧
    ((s.listings.map Listing.id).Nodup →
      ∀ l ∈ s.listings, l.id = id → l.view_count = 0 →
      ∃ l1 s1 l2 s2 l3 s3,
        getListingById now s id = (some l1, s1) ∧ l1.view_count = 1 ∧
        getListingById now2 s1 id = (some l2, s2) ∧ l2.view_count = 2 ∧
        getListingById now3 s2 id = (some l3, s3) ∧ l3.view_count = 3) := by
  refine ⟨?_, ?_, ?_⟩
  · intro hmiss
    have hmap : s.listings.map (fun m =>
        if m.id == id then { m with view_count := m.view_count + 1, updated_at := now }
        else m) = s.listings := by
      have : ∀ m ∈ s.listings, (fun m =>
          if m.id == id then { m with view_count := m.view_count + 1, updated_at := now }
          else m) m = m := by
        intro m hm
        simp [hmiss m hm]
      rw [List.map_congr_left this]
      simp
    have hnone : s.listings.find? (fun m => m.id == id) = none :=
      List.find?_eq_none.mpr (fun m hm => by simp [hmiss m hm])
    simp only [getListingById, hmap, hnone]
  · intro hnd l hl hid
    rw [getListingById_found now s id l hnd hl hid]
    refine Prod.ext rfl ?_
    dsimp only
    congr 1
    refine List.map_congr_left ?_
    intro m _
    by_cases h : m.id = id <;> simp [h]
  · intro hnd l hl hid h0
    have h1 := getListingById_found now s id l hnd hl hid
    set bump1 := fun (t : Nat) (m : Listing) =>
      if m.id == id then { m with view_count := m.view_count + 1, updated_at := t }
      else m with hbump1
    have hnd1 : ((s.listings.map (bump1 now)).map Listing.id).Nodup := by
      rw [hbump1]
      rw [viewBump_ids]
      exact hnd
    have hl1 : { l with view_count := l.view_count + 1, updated_at := now } ∈
        s.listings.map (bump1 now) := by
      have := List.mem_map_of_mem (bump1 now) hl
      simpa [hbump1, hid] using this
    have h2 := getListingById_found now2
      { s with listings := s.listings.map (bump1 now) } id
      { l with view_count := l.view_count + 1, updated_at := now } hnd1 hl1 hid
    have hnd2 : (((s.listings.map (bump1 now)).map (bump1 now2)).map Listing.id).Nodup := by
      rw [hbump1, viewBump_ids, viewBump_ids]
      exact hnd
    have hl2 : { l with view_count := l.view_count + 1 + 1, updated_at := now2 } ∈
        (s.listings.map (bump1 now)).map (bump1 now2) := by
      have := List.mem_map_of_mem (bump1 now2) hl1
      simpa [hbump1, hid] using this
    have h3 := getListingById_found now3
      { s with listings := (s.listings.map (bump1 now)).map (bump1 now2) } id
      { l with view_count := l.view_count + 1 + 1, updated_at := now2 } hnd2 hl2 hid
    exact ⟨_, _, _, _, _, _, h1, by simp [h0], h2, by simp [h0], h3, by simp [h0]⟩

/-- Witness for C7: three sequential reads of `sampleListing` (fresh, with
view_count 0) on `sampleStore` observe view counts 1, 2, 3. -/
theorem C7_getListingById_view_count_witness :
    ∃ l1 s1 l2 s2 l3 s3,
      getListingById 11 sampleStore 1 = (some l1, s1) ∧ l1.view_count = 1 ∧
      getListingById 12 s1 1 = (some l2, s2) ∧ l2.view_count = 2 ∧
      getListingById 13 s2 1 = (some l3, s3) ∧ l3.view_count = 3 :=
  (C7_getListingById_view_count 11 12 13 sampleStore 1).2.2
    (by decide) sampleListing (by simp [sampleStore]) rfl rfl

/-- All suffixes of a character list, longest first (the list itself down to
the empty list). -/
def suffixes : Str → List Str
  | [] => [[]]
  | c :: s => (c :: s) :: suffixes s

/-- Modelled from the spec: PostgreSQL `ILIKE` pattern matching.  The store is
external to this repository (the spec treats it as a black-box row store), so
its pattern semantics is modelled here: `%` matches any sequence, `_` any
single character, and all other characters match literally and
case-insensitively.  PostgreSQL's backslash escape is not modelled; the
theorems below that speak about literal queries exclude the backslash along
with the wildcard characters. -/
def ilikeMatch : Str → Str → Bool
  | [], s => s.isEmpty
  | c :: p, s =>
    if c == '%' then (suffixes s).any (fun t => ilikeMatch p t)
    else if c == '_' then
      match s with
      | [] => false
      | _ :: s' => ilikeMatch p s'
    else
      match s with
      | [] => false
      | d :: s' => c.toLower == d.toLower && ilikeMatch p s'

/-- Character-wise lowercasing (the case-insensitivity model). -/
def lowerStr (s : Str) : Str := s.map Char.toLower

/-- `needle` is a prefix of `hay`, character by character. -/
def prefixOf : Str → Str → Bool
  | [], _ => true
  | _ :: _, [] => false
  | a :: p, b :: s => a == b && prefixOf p s

/-- `hay` contains `needle` as a contiguous substring. -/
def containsSub (needle hay : Str) : Bool :=
  (suffixes hay).any (fun t => prefixOf needle t)

/-- The characters with special meaning in a LIKE pattern. -/
def likeMeta (c : Char) : Bool := c == '%' || c == '_' || c == '\\'

/-- Wraps a query the way the source interpolates it: `%query%`. -/
def wrapPct (q : Str) : Str := '%' :: (q ++ ['%'])

/-- The empty list is a suffix of every list. -/
theorem nil_mem_suffixes (s : Str) : [] ∈ suffixes s := by
  induction s with
  | nil => simp [suffixes]
  | cons c s ih => exact List.mem_cons_of_mem _ ih

/-- The bare `%` pattern matches every text. -/
theorem pct_matches_all (s : Str) : ilikeMatch ['%'] s = true := by
  simp only [ilikeMatch, beq_self_eq_true, if_true, List.any_eq_true]
  exact ⟨[], nil_mem_suffixes s, by simp [ilikeMatch]⟩

/-- A metacharacter-free pattern followed by `%` matches exactly the texts
that start with the pattern (case-insensitively). -/
theorem ilikeMatch_lit_pct (q : Str) (hq : ∀ c ∈ q, likeMeta c = false) (s : Str) :
    ilikeMatch (q ++ ['%']) s = prefixOf (lowerStr q) (lowerStr s) := by
  induction q generalizing s with
  | nil => simp [lowerStr, prefixOf, pct_matches_all s]
  | cons c q ih =>
      have hc := hq c (List.mem_cons_self c q)
      have hq' : ∀ x ∈ q, likeMeta x = false := fun x hx => hq x (List.mem_cons_of_mem _ hx)
      simp only [likeMeta, Bool.or_eq_false_iff] at hc
      cases s with
      | nil => simp [ilikeMatch, hc.1.1, hc.1.2, hc.2, lowerStr, prefixOf]
      | cons d s' =>
          simp only [List.cons_append, ilikeMatch, hc.1.1, hc.1.2, hc.2,
            Bool.false_eq_true, if_false, prefixOf, List.map_cons, List.append_eq]
          rw [ih hq' s']
          simp [lowerStr]

/-- A metacharacter-free pattern matches exactly the case-insensitively equal
texts. -/
theorem ilikeMatch_lit_exact (q : Str) (hq : ∀ c ∈ q, likeMeta c = false) (s : Str) :
    ilikeMatch q s = (lowerStr q == lowerStr s) := by
  induction q generalizing s with
  | nil => cases s <;> simp [ilikeMatch, lowerStr]
  | cons c q ih =>
      have hc := hq c (List.mem_cons_self c q)
      have hq' : ∀ x ∈ q, likeMeta x = false := fun x hx => hq x (List.mem_cons_of_mem _ hx)
      simp only [likeMeta, Bool.or_eq_false_iff] at hc
      cases s with
      | nil => simp [ilikeMatch, hc.1.1, hc.1.2, hc.2, lowerStr]
      | cons d s' =>
          simp only [ilikeMatch, hc.1.1, hc.1.2, hc.2, Bool.false_eq_true, if_false,
            lowerStr, List.map_cons]
          rw [ih hq' s']
          simp [lowerStr, List.cons_beq_cons]

/-- `suffixes` commutes with character-wise mapping. -/
theorem suffixes_map (f : Char → Char) (s : Str) :
    suffixes (s.map f) = (suffixes s).map (List.map f) := by
  induction s with
  | nil => simp [suffixes]
  | cons c s ih => simp [suffixes, ih]

/-- For a metacharacter-free query q, the interpolated pattern `%q%` matches
exactly the texts containing q as a case-insensitive substring. -/
theorem ilikeMatch_wrapPct (q : Str) (hq : ∀ c ∈ q, likeMeta c = false) (s : Str) :
    ilikeMatch (wrapPct q) s = containsSub (lowerStr q) (lowerStr s) := by
  have hfun : (fun t => ilikeMatch (q ++ ['%']) t) =
      (fun t => prefixOf (lowerStr q) (lowerStr t)) :=
    funext (ilikeMatch_lit_pct q hq)
  simp only [wrapPct, ilikeMatch, beq_self_eq_true, if_true, hfun]
  simp only [containsSub, lowerStr, suffixes_map, List.any_map]
  rfl

/-- JavaScript whitespace as stripped by `String.prototype.trim` (the ASCII
whitespace characters suffice for this model). -/
def jsWhitespace (c : Char) : Bool := c == ' ' || c == '\t' || c == '\n' || c == '\r'

/-- Truthiness of `searchQuery.trim()`: true iff some character of the query
is not whitespace. -/
def trimNonEmpty (q : Str) : Bool := !(q.all jsWhitespace)

/-- `ORDER BY created_at DESC`. -/
def sortByNewest (l : List Listing) : List Listing :=
  l.insertionSort (fun x y => y.created_at ≤ x.created_at)

/-- `searchListings` from `src/server/src/handlers/get_listings.ts`: always
restricts to active listings; when the trimmed query is truthy adds
`title ILIKE %query% OR description ILIKE %query%` (interpolating the RAW,
untrimmed query); applies the optional category (exact, if truthy) and
location (ILIKE substring, if truthy) filters; newest first. -/
def searchListings (s : Store) (searchQuery : Str) (category location : Option Str) :
    List Listing :=
  sortByNewest (s.listings.filter (fun l =>
    l.is_active == true
    && (if trimNonEmpty searchQuery then
          ilikeMatch (wrapPct searchQuery) l.title ||
            ilikeMatch (wrapPct searchQuery) l.description
        else true)
    && (match category with
        | some c => if c.isEmpty then true else l.category == c
        | none => true)
    && (match location with
        | some loc =>
            if loc.isEmpty then true
            else match l.location with
              | some v => ilikeMatch (wrapPct loc) v
              | none => false
        | none => true)))

/-- Sorting newest-first neither adds nor removes rows. -/
theorem mem_sortByNewest {l : List Listing} {x : Listing} :
    x ∈ sortByNewest l ↔ x ∈ l :=
  (List.perm_insertionSort _ l).mem_iff

/-- Claim C8 (amended): a query that is empty or whitespace-only passes every
active listing through; a query with non-whitespace content restricts to the
active listings whose title or description matches the ILIKE pattern
`%query%`, which for queries free of LIKE metacharacters is exactly
case-insensitive substring containment; inactive listings are never
returned. -/
theorem C8_searchListings_query_matching (s : Store) (q : Str) :
    (trimNonEmpty q = false →
      ∀ l, l ∈ searchListings s q none none ↔ l ∈ s.listings ∧ l.is_active = true) ∧
    (trimNonEmpty q = true →
      ∀ l, l ∈ searchListings s q none none ↔
        (l ∈ s.listings ∧ l.is_active = true ∧
          (ilikeMatch (wrapPct q) l.title = true ∨
           ilikeMatch (wrapPct q) l.description = true))) ∧
    (trimNonEmpty q = true → (∀ c ∈ q, likeMeta c = false) →
      ∀ l, l ∈ searchListings s q none none ↔
        (l ∈ s.listings ∧ l.is_active = true ∧
          (containsSub (lowerStr q) (lowerStr l.title) = true ∨
           containsSub (lowerStr q) (lowerStr l.description) = true))) ∧
    (∀ category location l, l ∈ searchListings s q category location →
      l.is_active = true) := by
  refine ⟨?_, ?_, ?_, ?_⟩
  · intro ht l
    simp [searchListings, mem_sortByNewest, List.mem_filter, ht]
  · intro ht l
    simp [searchListings, mem_sortByNewest, List.mem_filter, ht]
  · intro ht hlit l
    have h1 := ilikeMatch_wrapPct q hlit
    simp [searchListings, mem_sortByNewest, List.mem_filter, ht, h1]
  · intro category location l hl
    rw [searchListings, mem_sortByNewest, List.mem_filter] at hl
    have := hl.2
    simp only [Bool.and_eq_true, beq_iff_eq] at this
    exact this.1.1.1

/-- Counterexample to C8 as stated: the non-empty query "%" matches `%%%`
under ILIKE, so `searchListings` returns the active `sampleListing` even
though neither its title nor its description contains the character `%`. -/
theorem C8_wildcard_counterexample :
    trimNonEmpty ['%'] = true ∧
    (searchListings sampleStore ['%'] none none).map Listing.id = [1] ∧
    containsSub (lowerStr ['%']) (lowerStr sampleListing.title) = false ∧
    containsSub (lowerStr ['%']) (lowerStr sampleListing.description) = false ∧
    sampleListing.id = 1 ∧ sampleListing.is_active = true ∧
    sampleListing ∈ sampleStore.listings :=
  ⟨rfl, by decide, by decide, by decide, rfl, rfl, by simp [sampleStore]⟩

/-- Witness for C8 (amended): on `sampleStore`, the metacharacter-free query
"iphone" returns exactly the listings containing it case-insensitively. -/
theorem C8_searchListings_query_matching_witness :
    ∀ l, l ∈ searchListings sampleStore "iphone".toList none none ↔
      (l ∈ sampleStore.listings ∧ l.is_active = true ∧
        (containsSub (lowerStr "iphone".toList) (lowerStr l.title) = true ∨
         containsSub (lowerStr "iphone".toList) (lowerStr l.description) = true)) :=
  (C8_searchListings_query_matching sampleStore "iphone".toList).2.2.1
    (by decide) (by decide)

/-- `getUserByUsername` from `src/server/src/handlers/get_users.ts`: passes
the raw input string as an ILIKE pattern against the stored username and
returns the first hit, if any. -/
def getUserByUsername (s : Store) (username : Str) : Option User :=
  s.users.find? (fun u => ilikeMatch username u.username)

/-- Claim C9: because the raw input is an ILIKE pattern, the lookup is a
case-insensitive exact match only for inputs without LIKE metacharacters; for
the wildcard input "%" on `sampleStore` it returns the user "alice", whose
username is not case-insensitively equal to "%". -/
theorem C9_getUserByUsername_ilike (s : Store) (q : Str) :
    ((∀ c ∈ q, likeMeta c = false) →
      getUserByUsername s q =
        s.users.find? (fun u => lowerStr q == lowerStr u.username)) ∧
    (getUserByUsername sampleStore ['%'] = some sampleUserA ∧
      lowerStr sampleUserA.username ≠ lowerStr ['%']) := by
  constructor
  · intro hlit
    have hfun : (fun u : User => ilikeMatch q u.username) =
        (fun u : User => lowerStr q == lowerStr u.username) :=
      funext fun u => ilikeMatch_lit_exact q hlit u.username
    rw [getUserByUsername, hfun]
  · exact ⟨by decide, by decide⟩

/-- Witness for C9: the metacharacter-free lookup "ALICE" reduces to the
case-insensitive equality search (and finds the stored "alice"). -/
theorem C9_getUserByUsername_ilike_witness :
    getUserByUsername sampleStore "ALICE".toList =
      sampleStore.users.find? (fun u =>
        lowerStr "ALICE".toList == lowerStr u.username) :=
  (C9_getUserByUsername_ilike sampleStore "ALICE".toList).1 (by decide)

/-- The filters accepted by `getListings` (all optional). -/
structure ListingFilters where
  category : Option Str
  location : Option Str
  minPrice : Option Rat
  maxPrice : Option Rat
  condition : Option Str
  isActive : Option Bool
  limit : Option Nat
  offset : Option Nat

/-- JavaScript truthiness of an optional number: absent and 0 are falsy (the
source tests `filters?.limit &&`, `filters?.offset &&`). -/
def natTruthy (x : Option Nat) : Bool :=
  match x with
  | none => false
  | some n => n != 0

/-- The WHERE clause of `getListings`: category/location/condition apply only
when truthy (non-empty string), the price bounds whenever present (`!==
undefined`), the active flag whenever present. -/
def listingMatches (f : ListingFilters) (l : Listing) : Bool :=
  (match f.category with
    | some c => if c.isEmpty then true else l.category == c
    | none => true)
  && (match f.location with
      | some loc =>
          if loc.isEmpty then true
          else match l.location with
            | some v => ilikeMatch (wrapPct loc) v
            | none => false
      | none => true)
  && (match f.minPrice with
      | some m => decide (m ≤ l.price)
      | none => true)
  && (match f.maxPrice with
      | some m => decide (l.price ≤ m)
      | none => true)
  && (match f.condition with
      | some c => if c.isEmpty then true else l.condition == c
      | none => true)
  && (match f.isActive with
      | some b => l.is_active == b
      | none => true)

/-- The pagination branches of `getListings`: LIMIT and OFFSET are applied
only when truthy, mirroring the source's four-way branch (SQL applies OFFSET
before LIMIT). -/
def applyPagination (limit offset : Option Nat) (rows : List Listing) : List Listing :=
  if natTruthy limit && natTruthy offset then
    (rows.drop (offset.getD 0)).take (limit.getD 0)
  else if natTruthy limit then rows.take (limit.getD 0)
  else if natTruthy offset then rows.drop (offset.getD 0)
  else rows

/-- `getListings` from `src/server/src/handlers/get_listings.ts`: filter,
order newest first, then paginate.  (The source's separate with-WHERE and
without-WHERE query builds coincide: an absent WHERE clause equals filtering
with no conditions.) -/
def getListings (s : Store) (f : ListingFilters) : List Listing :=
  applyPagination f.limit f.offset (sortByNewest (s.listings.filter (listingMatches f)))

/-- Claim C10: `getListings` applies limit and offset only when truthy, so
limit 0 behaves exactly like no limit (every matching row is returned, not
none) and offset 0 behaves exactly like no offset. -/
theorem C10_getListings_zero_pagination (s : Store) (f : ListingFilters) :
    getListings s { f with limit := some 0 } = getListings s { f with limit := none } ∧
    getListings s { f with offset := some 0 } = getListings s { f with offset := none } := by
  constructor
  · rfl
  · have h0 : natTruthy (some 0) = false := rfl
    have hn : natTruthy none = false := rfl
    by_cases h : natTruthy f.limit = true
    · simp only [getListings, applyPagination, h, h0, hn, Bool.and_false,
        Bool.false_eq_true, if_false, if_true]
      rfl
    · rw [Bool.not_eq_true] at h
      simp only [getListings, applyPagination, h, h0, hn, Bool.false_and,
        Bool.false_eq_true, if_false]
      rfl

end Amancores
